import Mathlib

/-!
Verification of the Directorship-Builder web application (src/app.py).

The Python source is shallowly embedded below. Strings are modelled through
their character lists (ASCII fragment, which is the range the program
manipulates), fallible code returns Except/Option, the paginated HTTP walk is
modelled against an abstract upstream `server : Nat -> Page` with explicit
fuel, and the JSON endpoint builds an explicit JSON value so that the shape of
the response object can be inspected.
-/

namespace CHApp

/-! ## Python string primitives (ASCII fragment) -/

/-- Python `str.strip` whitespace class restricted to ASCII. -/
def pyIsSpace (c : Char) : Bool :=
  c == ' ' || c == '\t' || c == '\n' || c == '\r' || c == '\x0b' || c == '\x0c'

/-- Python `str.strip` on a character list. -/
def pyStripList (l : List Char) : List Char :=
  ((l.dropWhile pyIsSpace).reverse.dropWhile pyIsSpace).reverse

/-- Python `str.strip` on a string. -/
def pyStrip (s : String) : String :=
  String.mk (pyStripList s.data)

/-- Worker for `splitChar`, carrying the current chunk reversed. -/
def splitCharAux (sep : Char) : List Char → List Char → List (List Char)
  | [], cur => [cur.reverse]
  | c :: rest, cur =>
    if c == sep then cur.reverse :: splitCharAux sep rest []
    else splitCharAux sep rest (c :: cur)

/-- Python `str.split(sep)` for a one-character separator: empty chunks are
kept, and the empty input yields one empty chunk. -/
def splitChar (sep : Char) (l : List Char) : List (List Char) :=
  splitCharAux sep l []

/-- Python `sep.join(words)`. -/
def joinWords (sep : List Char) : List (List Char) → List Char
  | [] => []
  | [w] => w
  | w :: ws => w ++ sep ++ joinWords sep ws

/-- Decimal value of a digit list, as produced by Python `int`. -/
def natOfDigits (l : List Char) : Nat :=
  l.foldl (fun n c => n * 10 + (c.toNat - 48)) 0

/-- Python `str.capitalize`: first character uppercased, the rest lowercased. -/
def pyCapitalizeList : List Char → List Char
  | [] => []
  | c :: rest => c.toUpper :: rest.map Char.toLower

/-- Worker for `pyTitleList`: the flag records whether the previous character
was alphabetic (Python treats every character after a cased character as a
word continuation). -/
def pyTitleAux : Bool → List Char → List Char
  | _, [] => []
  | prevAlpha, c :: rest =>
    if c.isAlpha then
      (if prevAlpha then c.toLower else c.toUpper) :: pyTitleAux true rest
    else
      c :: pyTitleAux false rest

/-- Python `str.title`: the first letter of every maximal alphabetic run is
uppercased and the remaining letters of the run are lowercased. -/
def pyTitleList (l : List Char) : List Char :=
  pyTitleAux false l

/-! ## parse_date (src/app.py lines 54-60)

`datetime.strptime(s, "%Y-%m-%d")` requires exactly four year digits, and one
or two digits for month and day (the `%m` and `%d` patterns accept values
without a leading zero); constructing the date then validates it against the
calendar. Any failure is caught and yields `None`. -/

structure PDate where
  y : Nat
  m : Nat
  d : Nat
deriving DecidableEq, Repr

/-- Gregorian leap-year rule used by Python `datetime`. -/
def isLeapYear (y : Nat) : Bool :=
  y % 4 == 0 && (y % 100 != 0 || y % 400 == 0)

/-- Length of a month in the proleptic Gregorian calendar. -/
def daysInMonth (y m : Nat) : Nat :=
  if m == 2 then (if isLeapYear y then 29 else 28)
  else if m == 4 || m == 6 || m == 9 || m == 11 then 30
  else 31

/-- Embedding of `parse_date`. `none` models Python `None` (both as input and
as result); exceptions inside are caught by the source, so the result is an
`Option` and never an error. -/
def parse_date (date_str : Option String) : Option PDate :=
  match date_str with
  | none => none
  | some s =>
    if s = "" then none
    else
      match splitChar '-' s.data with
      | [ys, ms, ds] =>
        if ys.length = 4 ∧ ys.all Char.isDigit = true
            ∧ (ms.length = 1 ∨ ms.length = 2) ∧ ms.all Char.isDigit = true
            ∧ (ds.length = 1 ∨ ds.length = 2) ∧ ds.all Char.isDigit = true then
          let y := natOfDigits ys
          let m := natOfDigits ms
          let d := natOfDigits ds
          if 1 ≤ y ∧ 1 ≤ m ∧ m ≤ 12 ∧ 1 ≤ d ∧ d ≤ daysInMonth y m then
            some ⟨y, m, d⟩
          else none
        else none
      | _ => none

/-- English month name, as produced by `date.strftime("%B")`. -/
def monthName : Nat → String
  | 1 => "January"
  | 2 => "February"
  | 3 => "March"
  | 4 => "April"
  | 5 => "May"
  | 6 => "June"
  | 7 => "July"
  | 8 => "August"
  | 9 => "September"
  | 10 => "October"
  | 11 => "November"
  | 12 => "December"
  | _ => ""

/-- Embedding of `format_month_year` (src/app.py lines 63-65). -/
def format_month_year (d : PDate) : String :=
  monthName d.m ++ " " ++ toString d.y

/-! ## format_role (src/app.py lines 68-97) -/

/-- Acronyms kept uppercase by `format_role`. -/
def acronym_map : List (String × String) :=
  [("llp", "LLP"), ("cic", "CIC"), ("uk", "UK"), ("eu", "EU"), ("usa", "USA")]

/-- Small words kept lowercase in non-initial position by `format_role`. -/
def lower_words : List String :=
  ["of", "a", "an", "the", "and", "to", "for", "in", "on", "at", "by", "with"]

/-- Underscore-to-hyphen replacement used by `format_role`. -/
def replUnd (c : Char) : Char :=
  if c == '_' then '-' else c

/-- Per-token rule of the `format_role` loop, `i` being the token index. -/
def formatRoleTokenL (i : Nat) (p : List Char) : List Char :=
  match acronym_map.lookup (String.mk p) with
  | some a => a.data
  | none =>
    if i ≠ 0 ∧ lower_words.contains (String.mk p) = true then p
    else pyCapitalizeList p

/-- Embedding of `format_role`. -/
def format_role (role : Option String) : String :=
  match role with
  | none => "Officer"
  | some r =>
    if r = "" then "Officer"
    else
      let raw := (pyStripList (r.data.map replUnd)).map Char.toLower
      let parts := (splitChar '-' raw).filter (fun p => !p.isEmpty)
      String.mk (joinWords [' '] (parts.enum.map (fun ip => formatRoleTokenL ip.fst ip.snd)))

/-! ## smart_company_case (src/app.py lines 100-161)

The per-word regex `^([^A-Za-z0-9]*)(.*?)([^A-Za-z0-9]*)$` splits a word into
its maximal non-alphanumeric prefix, the middle core, and the maximal
non-alphanumeric suffix of the remainder (the greedy leading group takes the
longest prefix; the lazy middle group leaves the longest suffix to the final
group). -/

/-- Special-cased company words of `smart_company_case`. -/
def special_words : List (String × String) :=
  [("LIMITED", "Limited"), ("LTD", "Ltd"), ("PLC", "PLC"), ("LLP", "LLP"),
   ("UK", "UK"), ("EU", "EU"), ("USA", "USA"), ("INC", "Inc"), ("CO", "Co"),
   ("CORP", "Corp")]

/-- Words never kept as short acronyms by `smart_company_case`. -/
def exclude_small : List String :=
  ["THE", "AND", "FOR", "OF", "A", "AN", "IN", "ON", "AT", "TO", "BY", "AS"]

/-- Character class `[^A-Za-z0-9]` of the word regex. -/
def nonAlnum (c : Char) : Bool := !c.isAlphanum

/-- Group 1 of the word regex: maximal non-alphanumeric prefix. -/
def leadOf (w : List Char) : List Char := w.takeWhile nonAlnum

/-- Remainder of the word after group 1. -/
def restOf (w : List Char) : List Char := w.drop (leadOf w).length

/-- Group 3 of the word regex: maximal non-alphanumeric suffix of the rest. -/
def tailOf (w : List Char) : List Char :=
  ((restOf w).reverse.takeWhile nonAlnum).reverse

/-- Group 2 of the word regex: the middle core. -/
def coreOf (w : List Char) : List Char :=
  (restOf w).take ((restOf w).length - (tailOf w).length)

/-- Core rewriting rule of the `smart_company_case` loop: special table, then
short alphabetic acronyms, then digit-containing cores kept as written, then
Python title case. -/
def caseBranch (core : List Char) : List Char :=
  let coreClean := (core.filter Char.isAlphanum).map Char.toUpper
  match special_words.lookup (String.mk coreClean) with
  | some v => v.data
  | none =>
    if coreClean ≠ [] ∧ coreClean.all Char.isAlpha = true ∧ coreClean.length ≤ 3
        ∧ exclude_small.contains (String.mk coreClean) = false then
      coreClean
    else if core.any Char.isDigit then core
    else pyTitleList (core.map Char.toLower)

/-- Per-word transformation of the `smart_company_case` loop. -/
def caseWord (w : List Char) : List Char :=
  if w.isEmpty then []
  else leadOf w ++ caseBranch (coreOf w) ++ tailOf w

/-- Embedding of `smart_company_case`. `none` models Python `None`. -/
def smart_company_case (name : Option String) : String :=
  match name with
  | none => "Unknown company"
  | some nm =>
    if nm = "" then "Unknown company"
    else
      let s := pyStripList nm.data
      let letters := s.filter Char.isAlpha
      if letters.isEmpty then String.mk s
      else if letters.all Char.isUpper then
        String.mk (joinWords [' '] ((splitChar ' ' s).map caseWord))
      else String.mk s

/-! ## extract_officer_id (src/app.py lines 22-51)

`urlparse` is modelled by `pyUrlparsePathL`, which reproduces CPython
`urllib.parse.urlparse` restricted to the `path` component the source reads:
scheme removal, netloc removal (with the unbalanced-bracket `ValueError`,
which the source turns into the invalid-URL message), fragment and query
removal, and parameter splitting on the last path segment. -/

/-- Characters allowed in a URL scheme after the leading letter. -/
def isSchemeChar (c : Char) : Bool :=
  c.isAlphanum || c == '+' || c == '-' || c == '.'

/-- Drop a leading `scheme:` as CPython does: the text before the first colon
must be nonempty, start with a letter and consist of scheme characters. -/
def stripScheme (l : List Char) : List Char :=
  match l.findIdx? (· == ':') with
  | some i =>
    if 0 < i ∧ (l.take i).all isSchemeChar = true
        ∧ (match l.head? with | some c => c.isAlpha | none => false) = true then
      l.drop (i + 1)
    else l
  | none => l

/-- CPython `_splitparams`: drop a `;params` suffix of the last path segment. -/
def splitParamsL (l : List Char) : List Char :=
  if l.contains ';' then
    if l.contains '/' then
      match (l.reverse.findIdx? (· == '/')) with
      | some ri =>
        let k := l.length - 1 - ri
        match (l.drop k).findIdx? (· == ';') with
        | some j => l.take (k + j)
        | none => l
      | none => l
    else
      match l.findIdx? (· == ';') with
      | some j => l.take j
      | none => l
  else l

/-- Fragment removal, then query removal, then parameter splitting. -/
def pathFromRest (l : List Char) : List Char :=
  splitParamsL ((l.takeWhile (· != '#')).takeWhile (· != '?'))

/-- The `path` component computed by `urlparse`; `none` models the
`ValueError` raised on an unbalanced IPv6 bracket in the netloc. -/
def pyUrlparsePathL (l : List Char) : Option (List Char) :=
  let l1 := stripScheme l
  match l1 with
  | '/' :: '/' :: rest =>
    let netloc := rest.takeWhile (fun c => !(c == '/' || c == '?' || c == '#'))
    if (netloc.contains '[' && !netloc.contains ']')
        || (netloc.contains ']' && !netloc.contains '[') then none
    else some (pathFromRest (rest.drop netloc.length))
  | _ => some (pathFromRest l1)

/-- The bare-id pattern `[A-Za-z0-9_-]{10,}` of `extract_officer_id`. -/
def isBareId (l : List Char) : Bool :=
  decide (10 ≤ l.length) && l.all (fun c => c.isAlphanum || c == '_' || c == '-')

/-- One attempted match of `/officers/([^/]+)` at the head of `l`; with
`needAppts` the match additionally requires `/appointments` right after the
id segment, as in the preferred regex. -/
def matchIdAt (l : List Char) (needAppts : Bool) : Option (List Char) :=
  if ("/officers/".data).isPrefixOf l then
    let after := l.drop 10
    let id := after.takeWhile (· != '/')
    if id.isEmpty then none
    else if needAppts then
      if ("/appointments".data).isPrefixOf (after.drop id.length) then some id
      else none
    else some id
  else none

/-- `re.search` of `/officers/([^/]+)(/appointments)?`: first position where
the pattern matches, returning the captured id. -/
def searchOfficersId : List Char → Bool → Option (List Char)
  | [], _ => none
  | l@(_ :: rest), b =>
    match matchIdAt l b with
    | some id => some id
    | none => searchOfficersId rest b

/-- Embedding of `extract_officer_id`; `Except.error` carries the message of
the raised `ValueError`. -/
def extract_officer_id (user_input : Option String) : Except String String :=
  let s := pyStripList (user_input.getD "").data
  if s.isEmpty then
    Except.error "Please paste a Companies House officer appointments link."
  else if !s.contains '/' && isBareId s then
    Except.ok (String.mk s)
  else
    match pyUrlparsePathL s with
    | none => Except.error "That doesn\x27t look like a valid URL."
    | some path =>
      match searchOfficersId path true with
      | some id => Except.ok (String.mk id)
      | none =>
        match searchOfficersId path false with
        | some id => Except.ok (String.mk id)
        | none =>
          Except.error "I couldn\x27t find an officer id in that link. It should look like: /officers/<OFFICER_ID>/appointments"

/-- True exactly on the error constructor. -/
def isErrExcept : Except String String → Bool
  | Except.error _ => true
  | Except.ok _ => false

/-! ## Appointment records and build_output_lines (src/app.py lines 213-234) -/

/-- The `appointed_to` sub-object of an appointment item. -/
structure AppointedTo where
  company_name : Option String
deriving DecidableEq, Repr

/-- One raw appointment item, with the fields the source reads. A missing
JSON field is `none`. -/
structure Rec where
  appointed_to : Option AppointedTo
  officer_role : Option String
  appointed_on : Option String
  appointed_before : Option String
  resigned_on : Option String
deriving DecidableEq, Repr

/-- `(item.get("appointed_to") or {}).get("company_name")`. -/
def companyNameOf (item : Rec) : Option String :=
  match item.appointed_to with
  | some a => a.company_name
  | none => none

/-- Body of the `build_output_lines` loop for one item. -/
def lineFor (item : Rec) : String :=
  let company_name := smart_company_case (companyNameOf item)
  let role := format_role item.officer_role
  let appointed_on := parse_date item.appointed_on
  let appointed_before := parse_date item.appointed_before
  let resigned_on := parse_date item.resigned_on
  let start_label :=
    match appointed_on with
    | some d => format_month_year d
    | none =>
      match appointed_before with
      | some d => "Before " ++ format_month_year d
      | none => "Unknown start"
  let end_label :=
    match resigned_on with
    | some d => format_month_year d
    | none => "Present"
  company_name ++ " - " ++ role ++ " (" ++ start_label ++ " - " ++ end_label ++ ")"

/-- The accumulating loop of `build_output_lines`. -/
def buildLoop : List Rec → List String → List String
  | [], lines => lines
  | item :: rest, lines => buildLoop rest (lines ++ [lineFor item])

/-- Embedding of `build_output_lines`. -/
def build_output_lines (appointments : List Rec) : List String :=
  buildLoop appointments []

/-! ## fetch_all_appointments (src/app.py lines 164-210)

The upstream registry is abstracted as `server : Nat → Page`, mapping the
`start_index` parameter to the decoded response (status code, parsed `items`
and `total_results`, raw body text). The unbounded `while True` is run on
explicit fuel; `FetchOut.outOfFuel` marks runs the Python loop would continue
past the given fuel. The second component of the result is the list of
requested offsets, in order. -/

/-- Errors raised by the fetch loop: 401, 404, and other >= 400 statuses. -/
inductive FetchErr where
  | auth
  | notFound
  | upstream (status : Nat) (snippet : String)
deriving DecidableEq, Repr

/-- Decoded upstream response for one page. -/
structure Page where
  status : Nat
  items : List Rec
  total : Option Nat
  text : String
deriving DecidableEq, Repr

/-- Python slice `s[:n]` (by characters, as Python slices by code points). -/
def pySliceTo (s : String) (n : Nat) : String :=
  String.mk (s.data.take n)

/-- Status checks at the top of each loop iteration, in source order. -/
def checkResponse (p : Page) : Option FetchErr :=
  if p.status = 401 then some FetchErr.auth
  else if p.status = 404 then some FetchErr.notFound
  else if 400 ≤ p.status then some (FetchErr.upstream p.status (pySliceTo p.text 300))
  else none

/-- `items_per_page` constant of the source. -/
def items_per_page : Nat := 100

/-- Result of a fetch run. -/
inductive FetchOut where
  | ok (items : List Rec)
  | err (e : FetchErr)
  | outOfFuel
deriving DecidableEq, Repr

/-- `total is not None and len(items) >= total`, the first stop condition of
the loop. -/
def reachedTotal (p : Page) (count : Nat) : Bool :=
  match p.total with
  | some t => decide (t ≤ count)
  | none => false

/-- The pagination loop: one iteration requests `start`, checks the status,
appends the page items, stops when `total_results` is reached or a page is
empty, and otherwise advances by `items_per_page`. -/
def fetchGo (server : Nat → Page) : Nat → Nat → List Rec → FetchOut × List Nat
  | 0, _, _ => (FetchOut.outOfFuel, [])
  | fuel + 1, start, acc =>
    let p := server start
    match checkResponse p with
    | some e => (FetchOut.err e, [start])
    | none =>
      let acc2 := acc ++ p.items
      if reachedTotal p acc2.length then
        (FetchOut.ok acc2, [start])
      else if p.items.isEmpty then
        (FetchOut.ok acc2, [start])
      else
        let r := fetchGo server fuel (start + items_per_page) acc2
        (r.fst, start :: r.snd)

/-- Embedding of `fetch_all_appointments` against an abstract upstream. -/
def fetch_all_appointments (server : Nat → Page) (fuel : Nat) : FetchOut × List Nat :=
  fetchGo server fuel 0 []

/-- Message of each raised fetch exception, as in the source. -/
def errText : FetchErr → String
  | FetchErr.auth =>
    "Companies House rejected your API key (401 Unauthorized). Check COMPANIES_HOUSE_API_KEY in your deployment settings."
  | FetchErr.notFound =>
    "Officer not found (404). Double-check the officer link / officer id."
  | FetchErr.upstream st sn =>
    "Companies House API error (" ++ toString st ++ "): " ++ sn

/-! ## JSON endpoint (src/app.py lines 294-315) -/

/-- JSON values, enough for the endpoint responses. -/
inductive J where
  | str (s : String)
  | num (n : Nat)
  | arr (elems : List J)
  | obj (fields : List (String × J))

/-- Keys of a JSON object (empty for non-objects). -/
def objKeys : J → List String
  | J.obj fs => fs.map Prod.fst
  | _ => []

/-- Embedding of `get_api_key`: the environment variable, stripped, with the
empty value collapsed to `None`. -/
def get_api_key (env : Option String) : Option String :=
  let k := pyStrip (env.getD "")
  if k = "" then none else some k

/-- `(request.args.get("active_only") or "").strip() in {"1","true","yes","on"}`. -/
def activeFlagOf (a : Option String) : Bool :=
  ["1", "true", "yes", "on"].contains (pyStrip (a.getD ""))

/-- Embedding of the `/api` handler. `env` is the raw environment variable,
`urlArg`/`activeArg` the raw query parameters, `http oid active` the abstract
upstream for the given officer id and filter. The result is the JSON body and
HTTP status; `none` models a run whose pagination loop exceeds the fuel. -/
def api (env : Option String) (urlArg : Option String) (activeArg : Option String)
    (http : String → Bool → Nat → Page) (fuel : Nat) : Option (J × Nat) :=
  match get_api_key env with
  | none => some (J.obj [("error", J.str "Missing COMPANIES_HOUSE_API_KEY")], 500)
  | some _ =>
    let url := pyStrip (urlArg.getD "")
    let active := activeFlagOf activeArg
    match extract_officer_id (some url) with
    | Except.error e => some (J.obj [("error", J.str e)], 400)
    | Except.ok oid =>
      match fetch_all_appointments (http oid active) fuel with
      | (FetchOut.outOfFuel, _) => none
      | (FetchOut.err e, _) => some (J.obj [("error", J.str (errText e))], 400)
      | (FetchOut.ok items, _) =>
        let lines := build_output_lines items
        some (J.obj [("officer_id", J.str oid), ("count", J.num lines.length),
                     ("lines", J.arr (lines.map J.str))], 200)

/-! ## Claim-side definitions

These transcribe the wording of the specification claims, for comparison with
the source embeddings above. -/

/-- The display-ready pair the specification calls an OutputRow. -/
structure OutputRow where
  company : String
  appointment : String
deriving DecidableEq, Repr

/-- Start label as described by claim C2. -/
def startLabelClaim (r : Rec) : String :=
  match parse_date r.appointed_on with
  | some d => format_month_year d
  | none =>
    match parse_date r.appointed_before with
    | some d => "Before " ++ format_month_year d
    | none => "Unknown start"

/-- End label as described by claim C2. -/
def endLabelClaim (r : Rec) : String :=
  match parse_date r.resigned_on with
  | some d => format_month_year d
  | none => "Present"

/-- Appointment text as described by claim C2. -/
def appointmentTextClaim (r : Rec) : String :=
  format_role r.officer_role ++ " (" ++ startLabelClaim r ++ " - " ++ endLabelClaim r ++ ")"

/-- Company field as described by claim C2. -/
def companyClaim (r : Rec) : String :=
  smart_company_case (companyNameOf r)

/-- The pair-valued row builder claimed by C2 (following the claim wording). -/
def build_rows_claim (records : List Rec) : List OutputRow :=
  records.map (fun r => ⟨companyClaim r, appointmentTextClaim r⟩)

/-- The worked example record of the specification. -/
def exampleRec : Rec :=
  ⟨some ⟨some "RELIANCE EUROPE LIMITED"⟩, some "director", some "1991-07-01",
   none, some "2017-06-15"⟩

/-- Word decomposition of claim C3, phrased with right-run combinators: lead
is the maximal leading punctuation, the core is the rest with its trailing
punctuation removed. -/
def coreClaimOf (w : List Char) : List Char :=
  (w.dropWhile nonAlnum).rdropWhile nonAlnum

/-- Trailing punctuation of claim C3. -/
def tailClaimOf (w : List Char) : List Char :=
  (w.dropWhile nonAlnum).rtakeWhile nonAlnum

/-- Per-word transformation of claim C3 as amended (the final branch is
Python title case, capitalising each maximal alphabetic run). -/
def caseWordClaim (w : List Char) : List Char :=
  if w.isEmpty then []
  else w.takeWhile nonAlnum ++ caseBranch (coreClaimOf w) ++ tailClaimOf w

/-- Core rewriting rule exactly as claim C3 states it, whose final branch
capitalises only the first letter of the core and lowercases the rest. -/
def caseBranchOrig (core : List Char) : List Char :=
  let coreClean := (core.filter Char.isAlphanum).map Char.toUpper
  match special_words.lookup (String.mk coreClean) with
  | some v => v.data
  | none =>
    if coreClean ≠ [] ∧ coreClean.all Char.isAlpha = true ∧ coreClean.length ≤ 3
        ∧ exclude_small.contains (String.mk coreClean) = false then
      coreClean
    else if core.any Char.isDigit then core
    else pyCapitalizeList core

/-- All-caps rewriting exactly as claim C3 states it. -/
def smartCaseOrigClaim (name : String) : String :=
  String.mk (joinWords [' ']
    ((splitChar ' ' (pyStripList name.data)).map (fun w =>
      if w.isEmpty then []
      else w.takeWhile nonAlnum ++ caseBranchOrig (coreClaimOf w) ++ tailClaimOf w)))

/-- `format_role` pipeline exactly as claim C9 states it: replace underscores,
lowercase, split into nonempty hyphen-separated tokens, map each token, join
with spaces -- with no whitespace trimming step. -/
def formatRoleNoTrimClaim (r : String) : String :=
  let raw := (r.data.map replUnd).map Char.toLower
  let parts := (splitChar '-' raw).filter (fun p => !p.isEmpty)
  String.mk (joinWords [' '] (parts.enum.map (fun ip => formatRoleTokenL ip.fst ip.snd)))

/-- `format_role` pipeline of claim C9 as amended, with the trimming step the
source performs between the replacement and the lowercasing. -/
def formatRoleClaim (r : String) : String :=
  let raw := (pyStripList (r.data.map replUnd)).map Char.toLower
  let parts := (splitChar '-' raw).filter (fun p => !p.isEmpty)
  String.mk (joinWords [' '] (parts.enum.map (fun ip => formatRoleTokenL ip.fst ip.snd)))

/-- Strict `YYYY-MM-DD` shape of claim C8: four year digits and two digits
each for month and day. -/
def isStrictYMDShape (s : String) : Bool :=
  match splitChar '-' s.data with
  | [ys, ms, ds] =>
    decide (ys.length = 4) && ys.all Char.isDigit
      && decide (ms.length = 2) && ms.all Char.isDigit
      && decide (ds.length = 2) && ds.all Char.isDigit
  | _ => false

/-- Acceptance rule of claim C8 as amended: a 4-digit year and 1-2 digit
month and day whose values form a valid calendar date. -/
def claimParseDate (s : String) : Option PDate :=
  match splitChar '-' s.data with
  | [ys, ms, ds] =>
    if (ys.length = 4 ∧ ys.all Char.isDigit = true
        ∧ (ms.length = 1 ∨ ms.length = 2) ∧ ms.all Char.isDigit = true
        ∧ (ds.length = 1 ∨ ds.length = 2) ∧ ds.all Char.isDigit = true)
        ∧ (1 ≤ natOfDigits ys ∧ 1 ≤ natOfDigits ms ∧ natOfDigits ms ≤ 12
        ∧ 1 ≤ natOfDigits ds
        ∧ natOfDigits ds ≤ daysInMonth (natOfDigits ys) (natOfDigits ms)) then
      some ⟨natOfDigits ys, natOfDigits ms, natOfDigits ds⟩
    else none
  | _ => none

/-- An appointment record with every field absent, used as a generic page
item for the pagination scenario. -/
def blankRec : Rec := ⟨none, none, none, none, none⟩

/-- First page of the total_results=150 pagination scenario. -/
def c6Items1 : List Rec := List.replicate 100 blankRec

/-- Second page of the total_results=150 pagination scenario. -/
def c6Items2 : List Rec := List.replicate 50 blankRec

/-- Upstream of the total_results=150 pagination scenario. -/
def c6Server : Nat → Page := fun n =>
  if n = 0 then ⟨200, c6Items1, some 150, ""⟩
  else if n = items_per_page then ⟨200, c6Items2, some 150, ""⟩
  else ⟨200, [], none, ""⟩

/-- An upstream returning one empty page, for the endpoint witnesses. -/
def emptyHttp : String → Bool → Nat → Page := fun _ _ _ => ⟨200, [], some 0, ""⟩

/-! ## Helper lemmas -/

/-- The accumulating loop of `build_output_lines` is a map. -/
theorem buildLoop_eq (l : List Rec) :
    ∀ acc : List String, buildLoop l acc = acc ++ l.map lineFor := by
  induction l with
  | nil => intro acc; simp [buildLoop]
  | cons item rest ih => intro acc; simp [buildLoop, ih]

/-- One line of `build_output_lines` is the company field and the appointment
text of the claimed OutputRow, joined by a dash. -/
theorem lineFor_eq (r : Rec) :
    lineFor r = companyClaim r ++ " - " ++ appointmentTextClaim r := by
  simp only [lineFor, companyClaim, appointmentTextClaim, startLabelClaim,
    endLabelClaim, String.append_assoc]

/-- Merging a nested guard into a conjunction. -/
theorem if_if_eq_if_and {p q : Prop} [Decidable p] [Decidable q] {α : Type}
    (x : α) :
    (if p then (if q then some x else none) else none)
      = (if p ∧ q then some x else none) := by
  by_cases hp : p <;> by_cases hq : q <;> simp [hp, hq]

/-! ## Claim C2 -/

/-- Claim C2 counterexample: the code builds one combined display string per
record, not a pair. On the worked example of the specification, the built row
is the single string joining company and appointment text with a dash, which
is neither field of the claimed pair. -/
theorem build_rows_pair_counterexample :
    build_output_lines [exampleRec]
        = ["Reliance Europe Limited - Director (July 1991 - June 2017)"]
      ∧ build_rows_claim [exampleRec]
        = [⟨"Reliance Europe Limited", "Director (July 1991 - June 2017)"⟩]
      ∧ ("Reliance Europe Limited - Director (July 1991 - June 2017)" : String)
          ≠ "Director (July 1991 - June 2017)"
      ∧ ("Reliance Europe Limited - Director (July 1991 - June 2017)" : String)
          ≠ "Reliance Europe Limited" := by
  refine ⟨by decide, by decide, by decide, by decide⟩

/-- Claim C2 (amended): the row builder is pure, order-preserving and
produces exactly one row per input record; each row is the single string
`company - role (start - end)`, whose company part and whose appointment part
`role (start - end)` are exactly the fields described by the claim. On the
worked example the row is
`Reliance Europe Limited - Director (July 1991 - June 2017)`. -/
theorem build_output_lines_spec :
    (∀ records : List Rec,
        build_output_lines records
            = records.map (fun r => companyClaim r ++ " - " ++ appointmentTextClaim r)
          ∧ (build_output_lines records).length = records.length)
    ∧ build_output_lines [exampleRec]
        = ["Reliance Europe Limited - Director (July 1991 - June 2017)"] := by
  constructor
  · intro records
    have h : build_output_lines records = records.map lineFor := by
      simpa [build_output_lines] using buildLoop_eq records []
    refine ⟨?_, by rw [h]; simp⟩
    rw [h]
    exact List.map_congr_left (fun r _ => lineFor_eq r)
  · decide

/-! ## Claim C8 -/

/-- Claim C8 counterexample: `strptime("%Y-%m-%d")` accepts single-digit
month and day, so `1991-7-1` (not strict `YYYY-MM-DD`) parses, while the
strictly shaped `2021-02-30` is rejected by calendar validation. -/
theorem parse_date_strict_counterexample :
    isStrictYMDShape "1991-7-1" = false
      ∧ parse_date (some "1991-7-1") = some ⟨1991, 7, 1⟩
      ∧ isStrictYMDShape "2021-02-30" = true
      ∧ parse_date (some "2021-02-30") = none := by
  refine ⟨by decide, by decide, by decide, by decide⟩

/-- Claim C8 (amended): `parse_date` returns a date exactly when the input is
`Y-M-D` with a 4-digit year and 1-2 digit month and day forming a valid
calendar date; the empty value, `None` and every other input yield null, and
the function is total (the source catches every exception). -/
theorem parse_date_spec :
    parse_date none = none
      ∧ parse_date (some "") = none
      ∧ (∀ s : String, parse_date (some s) = claimParseDate s)
      ∧ parse_date (some "1991-07-01") = some ⟨1991, 7, 1⟩
      ∧ parse_date (some "2021-02-29") = none
      ∧ parse_date (some "07/01/1991") = none := by
  refine ⟨rfl, by decide, ?_, by decide, by decide, by decide⟩
  intro s
  by_cases hs : s = ""
  · subst hs; decide
  · simp only [parse_date, claimParseDate]
    rw [if_neg hs]
    cases hsp : splitChar '-' s.data with
    | nil => rfl
    | cons ys tl =>
      cases tl with
      | nil => rfl
      | cons ms tl2 =>
        cases tl2 with
        | nil => rfl
        | cons ds tl3 =>
          cases tl3 with
          | cons e tl4 => rfl
          | nil =>
            dsimp only
            exact if_if_eq_if_and _

/-! ## Claim C9 -/

/-- Claim C9 counterexample: the source strips whitespace between the
underscore replacement and the lowercasing, a step the claim omits. On the
input consisting of a space followed by `director`, the claimed pipeline
keeps the leading space inside its only token (Python `capitalize` uppercases
the space, leaving it unchanged), while the source returns `Director`. -/
theorem format_role_trim_counterexample :
    format_role (some " director") = "Director"
      ∧ formatRoleNoTrimClaim " director" = " director"
      ∧ ("Director" : String) ≠ " director" := by
  refine ⟨by decide, by decide, by decide⟩

/-- Claim C9 (amended): `format_role` defaults to `Officer` on an empty or
null role, and otherwise replaces underscores with hyphens, trims surrounding
whitespace, lowercases, splits on hyphens into nonempty tokens, maps the
fixed acronyms to uppercase, keeps non-initial small words lowercase,
capitalizes the first letter of every other token (the first token always),
and joins with single spaces. -/
theorem format_role_spec :
    format_role none = "Officer"
      ∧ format_role (some "") = "Officer"
      ∧ (∀ r : String, r ≠ "" → format_role (some r) = formatRoleClaim r)
      ∧ format_role (some "llp-designated-member") = "LLP Designated Member"
      ∧ format_role (some "director-of-the-board") = "Director of the Board" := by
  refine ⟨rfl, by decide, ?_, by decide, by decide⟩
  intro r hr
  simp only [format_role, formatRoleClaim]
  rw [if_neg hr]

/-- Witness for the hypothesis-bearing clause of `format_role_spec`. -/
theorem format_role_spec_witness :
    format_role (some "corporate-secretary") = formatRoleClaim "corporate-secretary" :=
  format_role_spec.2.2.1 "corporate-secretary" (by decide)

/-! ## Claim C10 -/

/-- Claim C10 counterexample: a non-empty role made only of hyphens,
underscores and whitespace does not always give the empty string. With the
code `- -`, the interior space survives as a token, so the result is a single
space rather than the empty string. -/
theorem format_role_space_counterexample :
    format_role (some "- -") = " " ∧ (" " : String) ≠ "" := by
  refine ⟨by decide, by decide⟩

/-- The underscore replacement preserves the whitespace class. -/
theorem pyIsSpace_replUnd (c : Char) : pyIsSpace (replUnd c) = pyIsSpace c := by
  by_cases h : c = '_'
  · subst h; decide
  · simp [replUnd, h]

/-- `dropWhile pyIsSpace` commutes with the underscore replacement. -/
theorem dropWhile_map_replUnd (l : List Char) :
    (l.map replUnd).dropWhile pyIsSpace = (l.dropWhile pyIsSpace).map replUnd := by
  induction l with
  | nil => rfl
  | cons c rest ih =>
    by_cases h : pyIsSpace c = true
    · simp [List.dropWhile_cons, pyIsSpace_replUnd, h, ih]
    · simp [List.dropWhile_cons, pyIsSpace_replUnd, h]

/-- Stripping commutes with the underscore replacement. -/
theorem pyStripList_map_replUnd (l : List Char) :
    pyStripList (l.map replUnd) = (pyStripList l).map replUnd := by
  unfold pyStripList
  rw [dropWhile_map_replUnd, ← List.map_reverse, dropWhile_map_replUnd,
    ← List.map_reverse]

/-- Splitting an all-separator list yields only empty chunks. -/
theorem splitCharAux_all_sep (l : List Char) (h : ∀ c ∈ l, c = '-') :
    splitCharAux '-' l [] = List.replicate (l.length + 1) [] := by
  induction l with
  | nil => rfl
  | cons c rest ih =>
    have hc : c = '-' := h c (List.mem_cons_self c rest)
    subst hc
    rw [show ('-' :: rest).length + 1 = (rest.length + 1) + 1 from rfl,
      List.replicate_succ]
    simp only [splitCharAux, List.reverse_nil]
    have ht : ('-' == '-') = true := rfl
    rw [if_pos ht]
    exact congrArg (List.cons []) (ih (fun c hc => h c (List.mem_cons_of_mem _ hc)))

/-- Splitting, stated on `splitChar`. -/
theorem splitChar_all_sep (l : List Char) (h : ∀ c ∈ l, c = '-') :
    splitChar '-' l = List.replicate (l.length + 1) [] :=
  splitCharAux_all_sep l h

/-- Empty chunks are all removed by the nonempty filter. -/
theorem filter_nonempty_replicate (n : Nat) :
    (List.replicate n ([] : List Char)).filter (fun p => !p.isEmpty) = [] := by
  induction n with
  | zero => rfl
  | succ k ih => simp [List.replicate_succ, List.filter_cons, ih]

/-- Claim C10 (amended): a non-empty role code whose trimmed form consists
only of hyphens and underscores (so also a whitespace-only code) yields the
empty string rather than the `Officer` default: the empty-token filter leaves
no tokens, and the default only triggers on an empty or null input. Codes
with interior whitespace between the separators instead keep the whitespace
as tokens. -/
theorem format_role_sep_empty :
    ∀ role : String, role ≠ "" →
      (∀ c ∈ pyStripList role.data, c = '-' ∨ c = '_') →
      format_role (some role) = "" := by
  intro role hne hall
  simp only [format_role]
  rw [if_neg hne]
  have h2 : ∀ c ∈ ((pyStripList role.data).map replUnd).map Char.toLower,
      c = '-' := by
    intro c hc
    rcases List.mem_map.1 hc with ⟨b, hb, rfl⟩
    rcases List.mem_map.1 hb with ⟨a, ha, rfl⟩
    rcases hall a ha with h | h <;> subst h <;> decide
  rw [pyStripList_map_replUnd, splitChar_all_sep _ h2, filter_nonempty_replicate]
  decide

/-- Witness for `format_role_sep_empty` at the code `-_-`. -/
theorem format_role_sep_empty_witness : format_role (some "-_-") = "" :=
  format_role_sep_empty "-_-" (by decide) (by decide)

/-! ## Claim C4 -/

/-- Claim C4 counterexample: on a mixed-case name with surrounding
whitespace the function returns the trimmed name, not the input unchanged. -/
theorem smart_company_case_trim_counterexample :
    smart_company_case (some " Acme Ltd") = "Acme Ltd"
      ∧ ("Acme Ltd" : String) ≠ " Acme Ltd" := by
  refine ⟨by decide, by decide⟩

/-- Claim C4 (amended): `smart_company_case` returns `Unknown company` for an
empty or null name; a name without letters is returned trimmed as-is; and a
name whose letters are not uniformly uppercase is returned trimmed with its
original casing preserved (surrounding whitespace is stripped). -/
theorem smart_company_case_base :
    smart_company_case none = "Unknown company"
      ∧ smart_company_case (some "") = "Unknown company"
      ∧ (∀ name : String, name ≠ "" →
          ((pyStripList name.data).filter Char.isAlpha).isEmpty = true →
          smart_company_case (some name) = String.mk (pyStripList name.data))
      ∧ (∀ name : String, name ≠ "" →
          ((pyStripList name.data).filter Char.isAlpha).all Char.isUpper = false →
          smart_company_case (some name) = String.mk (pyStripList name.data))
      ∧ smart_company_case (some "Acme Ltd") = "Acme Ltd" := by
  refine ⟨rfl, by decide, ?_, ?_, by decide⟩
  · intro name h1 h2
    simp only [smart_company_case]
    rw [if_neg h1]
    simp [h2]
  · intro name h1 h2
    have h3 : ((pyStripList name.data).filter Char.isAlpha).isEmpty = false := by
      cases hE : ((pyStripList name.data).filter Char.isAlpha).isEmpty
      · rfl
      · exfalso
        have hnil : (pyStripList name.data).filter Char.isAlpha = [] :=
          List.isEmpty_iff.1 hE
        rw [hnil] at h2
        simp at h2
    simp only [smart_company_case]
    rw [if_neg h1]
    simp [h3, h2]

/-- Witness for the hypothesis-bearing clauses of `smart_company_case_base`,
at a name without letters. -/
theorem smart_company_case_base_witness :
    smart_company_case (some "12-34") = String.mk (pyStripList ("12-34" : String).data) :=
  smart_company_case_base.2.2.1 "12-34" (by decide) (by decide)

/-! ## Claim C3 -/

/-- Dropping the length of the taken prefix is `dropWhile`. -/
theorem drop_length_takeWhile (p : Char → Bool) (l : List Char) :
    l.drop (l.takeWhile p).length = l.dropWhile p := by
  induction l with
  | nil => rfl
  | cons c rest ih =>
    by_cases h : p c = true
    · simp [List.takeWhile_cons, List.dropWhile_cons, h, ih]
    · simp [List.takeWhile_cons, List.dropWhile_cons, h]

/-- Taking everything up to the maximal matching suffix is the reversed
`dropWhile` of the reversal. -/
theorem take_sub_rev (p : Char → Bool) (l : List Char) :
    l.take (l.length - (l.reverse.takeWhile p).reverse.length)
      = (l.reverse.dropWhile p).reverse := by
  have h : l = (l.reverse.dropWhile p).reverse ++ (l.reverse.takeWhile p).reverse := by
    rw [← List.reverse_append, List.takeWhile_append_dropWhile, List.reverse_reverse]
  set a := (l.reverse.dropWhile p).reverse with ha
  set b := (l.reverse.takeWhile p).reverse with hb
  rw [h, List.length_append, Nat.add_sub_cancel]
  exact List.take_left' rfl

/-- The remainder after the lead matches the claim formulation. -/
theorem restOf_eq (w : List Char) : restOf w = w.dropWhile nonAlnum := by
  unfold restOf leadOf
  exact drop_length_takeWhile nonAlnum w

/-- The regex core matches the claim formulation. -/
theorem coreOf_eq (w : List Char) : coreOf w = coreClaimOf w := by
  unfold coreOf tailOf coreClaimOf
  rw [restOf_eq]
  simp only [List.rdropWhile]
  exact take_sub_rev nonAlnum _

/-- The regex trailing group matches the claim formulation. -/
theorem tailOf_eq (w : List Char) : tailOf w = tailClaimOf w := by
  unfold tailOf tailClaimOf
  rw [restOf_eq]
  simp only [List.rtakeWhile]

/-- The per-word transformation of the source equals the claim wording. -/
theorem caseWord_eq_claim (w : List Char) : caseWord w = caseWordClaim w := by
  simp only [caseWord, caseWordClaim, leadOf, coreOf_eq, tailOf_eq]

/-- Claim C3 counterexample: the final branch is Python title case, which
capitalises each maximal alphabetic run, not just the first letter of the
core. On `CO-OP` the source produces `Co-Op`; the claim as stated (first
letter capitalised, rest lowercase) would produce `Co-op`. -/
theorem smart_company_case_title_counterexample :
    smart_company_case (some "CO-OP") = "Co-Op"
      ∧ smartCaseOrigClaim "CO-OP" = "Co-op"
      ∧ ("Co-Op" : String) ≠ "Co-op" := by
  refine ⟨by decide, by decide, by decide⟩

/-- Claim C3 (amended): on names whose letters are all uppercase, the
function rewrites word by word exactly as the claim describes (split on
single spaces, lead/core/trailing punctuation, special table, short
alphabetic acronyms with exclusions, digit cores kept as written), except
that the fallback is Python title case: the first letter of every maximal
alphabetic run of the core is capitalised and all other letters are
lowercased. The two worked examples of the claim hold. -/
theorem smart_company_case_allcaps :
    (∀ name : String, name ≠ "" →
        ((pyStripList name.data).filter Char.isAlpha).isEmpty = false →
        ((pyStripList name.data).filter Char.isAlpha).all Char.isUpper = true →
        smart_company_case (some name)
          = String.mk (joinWords [' ']
              ((splitChar ' ' (pyStripList name.data)).map caseWordClaim)))
    ∧ smart_company_case (some "RELIANCE EUROPE LIMITED") = "Reliance Europe Limited"
    ∧ smart_company_case (some "3M UK LIMITED") = "3M UK Limited" := by
  refine ⟨?_, by decide, by decide⟩
  intro name h1 h2 h3
  have hfun : caseWord = caseWordClaim := funext caseWord_eq_claim
  simp only [smart_company_case]
  rw [if_neg h1]
  simp [h2, h3, hfun]

/-- Witness for the hypothesis-bearing clause of `smart_company_case_allcaps`. -/
theorem smart_company_case_allcaps_witness :
    smart_company_case (some "IBM CO")
      = String.mk (joinWords [' ']
          ((splitChar ' ' (pyStripList ("IBM CO" : String).data)).map caseWordClaim)) :=
  smart_company_case_allcaps.1 "IBM CO" (by decide) (by decide) (by decide)

/-! ## Claim C7 -/

/-- Claim C7: during the pagination walk an HTTP 401 raises the
authentication error, a 404 the not-found error, any other status at least
400 the upstream error carrying the status and a body snippet of at most 300
characters, and statuses below 400 raise none of these. The last clause ties
the check to the walk itself: a failing first response aborts the run with
that error. -/
theorem fetch_error_mapping :
    (∀ p : Page, p.status = 401 → checkResponse p = some FetchErr.auth)
      ∧ (∀ p : Page, p.status = 404 → checkResponse p = some FetchErr.notFound)
      ∧ (∀ p : Page, 400 ≤ p.status → p.status ≠ 401 → p.status ≠ 404 →
          checkResponse p = some (FetchErr.upstream p.status (pySliceTo p.text 300))
            ∧ (pySliceTo p.text 300).data.length ≤ 300)
      ∧ (∀ p : Page, p.status < 400 → checkResponse p = none)
      ∧ (∀ (server : Nat → Page) (fuel : Nat) (e : FetchErr),
          checkResponse (server 0) = some e →
          fetch_all_appointments server (fuel + 1) = (FetchOut.err e, [0])) := by
  refine ⟨?_, ?_, ?_, ?_, ?_⟩
  · intro p h; simp [checkResponse, h]
  · intro p h; simp [checkResponse, h]
  · intro p h1 h2 h3
    constructor
    · simp [checkResponse, h1, h2, h3]
    · exact List.length_take_le 300 p.text.data
  · intro p h
    unfold checkResponse
    split_ifs with a b c <;> first | rfl | omega
  · intro server fuel e h
    simp [fetch_all_appointments, fetchGo, h]

/-- Witness for `fetch_error_mapping` at a concrete 500 response. -/
theorem fetch_error_mapping_witness :
    checkResponse ⟨500, [], none, "x"⟩
        = some (FetchErr.upstream 500 (pySliceTo "x" 300))
      ∧ (pySliceTo "x" 300).data.length ≤ 300 :=
  fetch_error_mapping.2.2.1 ⟨500, [], none, "x"⟩ (by decide) (by decide) (by decide)

/-! ## Claim C6 -/

/-- One unfolding step of the pagination loop. -/
theorem fetchGo_succ (server : Nat → Page) (fuel start : Nat) (acc : List Rec) :
    fetchGo server (fuel + 1) start acc
      = (let p := server start
         match checkResponse p with
         | some e => (FetchOut.err e, [start])
         | none =>
           let acc2 := acc ++ p.items
           if reachedTotal p acc2.length then (FetchOut.ok acc2, [start])
           else if p.items.isEmpty then (FetchOut.ok acc2, [start])
           else
             let r := fetchGo server fuel (start + items_per_page) acc2
             (r.fst, start :: r.snd)) := rfl

/-- The offsets requested by the loop from any starting offset are the
consecutive multiples of the page size. -/
theorem fetchGo_calls (server : Nat → Page) :
    ∀ (fuel start : Nat) (acc : List Rec),
      ∃ k, (fetchGo server fuel start acc).snd
            = (List.range k).map (fun i => start + i * items_per_page) := by
  intro fuel
  induction fuel with
  | zero => intro start acc; exact ⟨0, by simp [fetchGo]⟩
  | succ n ih =>
    intro start acc
    cases hc : checkResponse (server start) with
    | some e =>
      refine ⟨1, ?_⟩
      simp [fetchGo, hc, List.range_succ]
    | none =>
      by_cases h1 : reachedTotal (server start) (acc ++ (server start).items).length = true
      · refine ⟨1, ?_⟩
        rw [fetchGo_succ]
        dsimp only
        rw [hc]
        dsimp only
        rw [if_pos h1]
        simp [List.range_succ]
      · by_cases h2 : (server start).items.isEmpty = true
        · refine ⟨1, ?_⟩
          rw [fetchGo_succ]
          dsimp only
          rw [hc]
          dsimp only
          rw [if_neg h1, if_pos h2]
          simp [List.range_succ]
        · obtain ⟨k, hk⟩ := ih (start + items_per_page) (acc ++ (server start).items)
          refine ⟨k + 1, ?_⟩
          rw [fetchGo_succ]
          dsimp only
          rw [hc]
          dsimp only
          rw [if_neg h1, if_neg h2]
          dsimp only
          rw [hk, List.range_succ_eq_map]
          simp only [List.map_cons, List.map_map, Nat.zero_mul, Nat.add_zero]
          refine congrArg (List.cons start) (List.map_congr_left ?_)
          intro i _
          simp only [Function.comp, Nat.succ_eq_add_one]
          ring

/-- Claim C6: the pagination loop starts at offset 0 with page size 100 and
only ever requests consecutive multiples of the page size; with
total_results 150 and a full first page, exactly two upstream calls occur
(offsets 0 and 100) and the merged item list has the pages concatenated in
order, 150 items in total; a page with zero items also stops the loop. -/
theorem fetch_pagination_spec :
    (∀ (server : Nat → Page) (fuel : Nat),
        ∃ k, (fetch_all_appointments server fuel).snd
              = (List.range k).map (fun i => i * items_per_page))
      ∧ (∀ (server : Nat → Page) (items1 items2 : List Rec) (fuel : Nat),
          server 0 = ⟨200, items1, some 150, ""⟩ →
          server items_per_page = ⟨200, items2, some 150, ""⟩ →
          items1.length = 100 → items2.length = 50 →
          fetch_all_appointments server (fuel + 2)
              = (FetchOut.ok (items1 ++ items2), [0, items_per_page])
            ∧ (items1 ++ items2).length = 150)
      ∧ (∀ (server : Nat → Page) (fuel : Nat),
          server 0 = ⟨200, [], none, ""⟩ →
          fetch_all_appointments server (fuel + 1) = (FetchOut.ok [], [0])) := by
  refine ⟨?_, ?_, ?_⟩
  · intro server fuel
    obtain ⟨k, hk⟩ := fetchGo_calls server fuel 0 []
    exact ⟨k, by simpa using hk⟩
  · intro server items1 items2 fuel h0 h100 hl1 hl2
    have hne1 : items1.isEmpty = false := by
      cases items1 <;> simp_all
    have hchk1 : checkResponse ⟨200, items1, some 150, ""⟩ = none := by
      simp [checkResponse]
    have hchk2 : checkResponse ⟨200, items2, some 150, ""⟩ = none := by
      simp [checkResponse]
    have hr1 : reachedTotal ⟨200, items1, some 150, ""⟩ items1.length = false := by
      simp [reachedTotal, hl1]
    have hr2 : reachedTotal ⟨200, items2, some 150, ""⟩ (items1 ++ items2).length
        = true := by
      simp [reachedTotal, List.length_append, hl1, hl2]
    constructor
    · rw [show fuel + 2 = (fuel + 1) + 1 from rfl]
      unfold fetch_all_appointments
      rw [fetchGo_succ, h0]
      dsimp only [List.nil_append]
      rw [hchk1]
      dsimp only [List.nil_append]
      rw [if_neg (by rw [hr1]; exact Bool.false_ne_true)]
      rw [if_neg (by rw [hne1]; exact Bool.false_ne_true)]
      try dsimp only
      rw [Nat.zero_add, fetchGo_succ, h100]
      try dsimp only
      rw [hchk2]
      try dsimp only
      rw [if_pos hr2]
    · rw [List.length_append, hl1, hl2]
  · intro server fuel h
    unfold fetch_all_appointments
    rw [fetchGo_succ, h]
    dsimp only
    have hchk : checkResponse ⟨200, [], none, ""⟩ = none := by simp [checkResponse]
    rw [hchk]
    simp [reachedTotal]

/-- Witness for `fetch_pagination_spec` at a concrete two-page upstream. -/
theorem fetch_pagination_witness :
    fetch_all_appointments c6Server 2
        = (FetchOut.ok (c6Items1 ++ c6Items2), [0, items_per_page])
      ∧ (c6Items1 ++ c6Items2).length = 150 :=
  fetch_pagination_spec.2.1 c6Server c6Items1 c6Items2 0 rfl rfl (by decide) (by decide)

/-! ## Claim C5 -/

/-- Claim C5: after trimming, a slash-free input matching the bare-id pattern
is returned unchanged; otherwise the URL path is searched first for
`/officers/<id>/appointments` and then for the first `/officers/<id>`; and the
function fails exactly on the empty (or whitespace-only) input, on an input
that is neither a bare id nor a parseable URL, and on a URL whose path has no
`/officers/<id>` segment. -/
theorem extract_officer_id_spec :
    (∀ s : String,
        (pyStripList s.data).isEmpty = false →
        (pyStripList s.data).contains '/' = false →
        isBareId (pyStripList s.data) = true →
        extract_officer_id (some s) = Except.ok (String.mk (pyStripList s.data)))
      ∧ (∀ (s : String) (path id : List Char),
          (pyStripList s.data).isEmpty = false →
          (!(pyStripList s.data).contains '/' && isBareId (pyStripList s.data)) = false →
          pyUrlparsePathL (pyStripList s.data) = some path →
          searchOfficersId path true = some id →
          extract_officer_id (some s) = Except.ok (String.mk id))
      ∧ (∀ (s : String) (path id : List Char),
          (pyStripList s.data).isEmpty = false →
          (!(pyStripList s.data).contains '/' && isBareId (pyStripList s.data)) = false →
          pyUrlparsePathL (pyStripList s.data) = some path →
          searchOfficersId path true = none →
          searchOfficersId path false = some id →
          extract_officer_id (some s) = Except.ok (String.mk id))
      ∧ (∀ s : String,
          isErrExcept (extract_officer_id (some s)) = true ↔
            ((pyStripList s.data).isEmpty = true
              ∨ ((!(pyStripList s.data).contains '/' && isBareId (pyStripList s.data)) = false
                ∧ (match pyUrlparsePathL (pyStripList s.data) with
                   | none => True
                   | some path =>
                     searchOfficersId path true = none
                       ∧ searchOfficersId path false = none)))) := by
  refine ⟨?_, ?_, ?_, ?_⟩
  · intro s h0 h1 h2
    have hcond : (!(pyStripList s.data).contains '/'
        && isBareId (pyStripList s.data)) = true := by
      rw [h1, h2]; rfl
    simp only [extract_officer_id, Option.getD_some]
    rw [if_neg (by rw [h0]; exact Bool.false_ne_true), if_pos hcond]
  · intro s path id h0 hb hp hs
    simp only [extract_officer_id, Option.getD_some]
    rw [if_neg (by rw [h0]; exact Bool.false_ne_true),
      if_neg (by rw [hb]; exact Bool.false_ne_true)]
    simp only [hp, hs]
  · intro s path id h0 hb hp hs1 hs2
    simp only [extract_officer_id, Option.getD_some]
    rw [if_neg (by rw [h0]; exact Bool.false_ne_true),
      if_neg (by rw [hb]; exact Bool.false_ne_true)]
    simp only [hp, hs1, hs2]
  · intro s
    by_cases hE : (pyStripList s.data).isEmpty = true
    · simp only [extract_officer_id, Option.getD_some]
      rw [if_pos hE]
      exact iff_of_true rfl (Or.inl hE)
    · have hE' : (pyStripList s.data).isEmpty = false := by
        cases h : (pyStripList s.data).isEmpty
        · rfl
        · exact absurd h hE
      by_cases hB : (!(pyStripList s.data).contains '/'
          && isBareId (pyStripList s.data)) = true
      · simp only [extract_officer_id, Option.getD_some]
        rw [if_neg (by rw [hE']; exact Bool.false_ne_true), if_pos hB]
        refine iff_of_false (by simp [isErrExcept]) ?_
        rintro (h | ⟨hcf, _⟩)
        · exact hE h
        · rw [hB] at hcf
          exact absurd hcf (by decide)
      · have hB' : (!(pyStripList s.data).contains '/'
            && isBareId (pyStripList s.data)) = false := by
          cases h : (!(pyStripList s.data).contains '/' && isBareId (pyStripList s.data))
          · rfl
          · exact absurd h hB
        cases hP : pyUrlparsePathL (pyStripList s.data) with
        | none =>
          simp only [extract_officer_id, Option.getD_some]
          rw [if_neg (by rw [hE']; exact Bool.false_ne_true),
            if_neg (by rw [hB']; exact Bool.false_ne_true)]
          simp only [hP]
          refine iff_of_true rfl (Or.inr ⟨hB', ?_⟩)
          trivial
        | some path =>
          cases hS1 : searchOfficersId path true with
          | some id =>
            simp only [extract_officer_id, Option.getD_some]
            rw [if_neg (by rw [hE']; exact Bool.false_ne_true),
              if_neg (by rw [hB']; exact Bool.false_ne_true)]
            simp only [hP, hS1]
            refine iff_of_false (by simp [isErrExcept]) ?_
            rintro (h | ⟨_, hm⟩)
            · exact hE h
            · exact absurd hm.1 (by simp)
          | none =>
            cases hS2 : searchOfficersId path false with
            | some id =>
              simp only [extract_officer_id, Option.getD_some]
              rw [if_neg (by rw [hE']; exact Bool.false_ne_true),
                if_neg (by rw [hB']; exact Bool.false_ne_true)]
              simp only [hP, hS1, hS2]
              refine iff_of_false (by simp [isErrExcept]) ?_
              rintro (h | ⟨_, hm⟩)
              · exact hE h
              · exact absurd hm.2 (by simp)
            | none =>
              simp only [extract_officer_id, Option.getD_some]
              rw [if_neg (by rw [hE']; exact Bool.false_ne_true),
                if_neg (by rw [hB']; exact Bool.false_ne_true)]
              simp only [hP, hS1, hS2]
              refine iff_of_true rfl (Or.inr ⟨hB', ?_⟩)
              exact ⟨trivial, trivial⟩

/-- Witness for `extract_officer_id_spec` at a concrete appointments URL. -/
theorem extract_officer_id_spec_witness :
    extract_officer_id (some "http://x/officers/ABC123/appointments")
      = Except.ok "ABC123" :=
  extract_officer_id_spec.2.1 "http://x/officers/ABC123/appointments"
    (("/officers/ABC123/appointments" : String).data) (("ABC123" : String).data)
    (by decide) (by decide) (by decide) (by decide)

/-! ## Claim C1 -/

/-- Claim C1 counterexample: on a successful run the keys of the JSON body are
`officer_id`, `count` and `lines`; there is no `rows` key. -/
theorem api_rows_key_counterexample :
    (api (some "k") (some "OFFICER12345") none emptyHttp 1).map
        (fun r => (objKeys r.fst, r.snd))
      = some (["officer_id", "count", "lines"], 200)
      ∧ ("lines" : String) ≠ "rows"
      ∧ ¬ ("rows" ∈ (["officer_id", "count", "lines"] : List String)) := by
  refine ⟨rfl, by decide, by decide⟩

/-- Claim C1 (amended): with the API key unconfigured the endpoint answers
`{error}` with HTTP 500 independently of the query and upstream (so before
any pipeline step); with a key configured, a successful pipeline yields HTTP
200 and an object with exactly the keys `officer_id`, `count` and `lines`
(not `rows`), where `lines` holds the built output rows and `count` their
number; a pipeline failure (extraction or fetch) yields `{error}` with HTTP
400. -/
theorem api_contract :
    (∀ (env urlArg activeArg : Option String) (http : String → Bool → Nat → Page)
        (fuel : Nat), get_api_key env = none →
        api env urlArg activeArg http fuel
          = some (J.obj [("error", J.str "Missing COMPANIES_HOUSE_API_KEY")], 500))
      ∧ (∀ (env : Option String) (k : String) (urlArg activeArg : Option String)
          (http : String → Bool → Nat → Page) (fuel : Nat) (oid : String)
          (items : List Rec) (calls : List Nat),
          get_api_key env = some k →
          extract_officer_id (some (pyStrip (urlArg.getD ""))) = Except.ok oid →
          fetch_all_appointments (http oid (activeFlagOf activeArg)) fuel
              = (FetchOut.ok items, calls) →
          api env urlArg activeArg http fuel
            = some (J.obj
                [("officer_id", J.str oid),
                 ("count", J.num (build_output_lines items).length),
                 ("lines", J.arr ((build_output_lines items).map J.str))], 200))
      ∧ (∀ (env : Option String) (k : String) (urlArg activeArg : Option String)
          (http : String → Bool → Nat → Page) (fuel : Nat) (e : String),
          get_api_key env = some k →
          extract_officer_id (some (pyStrip (urlArg.getD ""))) = Except.error e →
          api env urlArg activeArg http fuel = some (J.obj [("error", J.str e)], 400))
      ∧ (∀ (env : Option String) (k : String) (urlArg activeArg : Option String)
          (http : String → Bool → Nat → Page) (fuel : Nat) (oid : String)
          (fe : FetchErr) (calls : List Nat),
          get_api_key env = some k →
          extract_officer_id (some (pyStrip (urlArg.getD ""))) = Except.ok oid →
          fetch_all_appointments (http oid (activeFlagOf activeArg)) fuel
              = (FetchOut.err fe, calls) →
          api env urlArg activeArg http fuel
            = some (J.obj [("error", J.str (errText fe))], 400)) := by
  refine ⟨?_, ?_, ?_, ?_⟩
  · intro env urlArg activeArg http fuel h
    simp [api, h]
  · intro env k urlArg activeArg http fuel oid items calls hk hx hf
    simp [api, hk, hx, hf]
  · intro env k urlArg activeArg http fuel e hk hx
    simp [api, hk, hx]
  · intro env k urlArg activeArg http fuel oid fe calls hk hx hf
    simp [api, hk, hx, hf]

/-- Witness for `api_contract`: the 500 clause with the key unset, and the
success clause on a bare officer id against an upstream with one empty
page. -/
theorem api_contract_witness :
    api none none none emptyHttp 1
        = some (J.obj [("error", J.str "Missing COMPANIES_HOUSE_API_KEY")], 500)
      ∧ api (some "k") (some "OFFICER12345") none emptyHttp 1
          = some (J.obj [("officer_id", J.str "OFFICER12345"), ("count", J.num 0),
                         ("lines", J.arr [])], 200) :=
  ⟨api_contract.1 none none none emptyHttp 1 rfl,
   api_contract.2.1 (some "k") "k" (some "OFFICER12345") none emptyHttp 1
     "OFFICER12345" [] [0] rfl rfl rfl⟩

end CHApp
